import Mathlib

/-!
Shallow embedding of the coverage / importance engine of birdplan.app
(`lib/coverage`), together with proofs about the claims of the specification.

Modelling conventions:
* JS numbers are modelled as rationals (`ℚ`); every arithmetic step of the
  engine (sums, products, one division, one rounding step) is exact, so `ℚ`
  is a faithful model of the real-valued behaviour.
* `hotspotId?: string` is modelled as `Option String`.  The JS truthiness
  test `!target.hotspotId` holds for `undefined` and for the empty string;
  `idOf` captures exactly this guard.
* JS `Array.prototype.sort` with comparator `(a, b) => b.percent - a.percent`
  is a stable descending sort by `percent` (ES2019 stability guarantee); it
  is modelled by the stable insertion sort `sortDescBy`.
* `Math.round x` is `⌊x + 1/2⌋` (round half toward +∞), modelled by `jsRound`.
* JS `Map` results are modelled extensionally as functions from keys to
  `Option` values; none of the claims depend on iteration order.
-/

attribute [local semireducible] Rat.add Rat.mul Rat.inv Rat.sub Rat.ofScientific

/-- One per-species frequency record at a location (source type `TargetItem`). -/
structure TargetItem where
  code : String
  name : String
  percent : ℚ
  percentYr : ℚ
deriving DecidableEq, Repr

/-- Target data of one saved location (source type `HotspotTargetData`). -/
structure HotspotTargetData where
  hotspotId : Option String
  items : List TargetItem
  N : ℚ
  yrN : ℚ
deriving DecidableEq, Repr

/-- Derived per-species coverage summary (source type `SpeciesCoverage`). -/
structure SpeciesCoverage where
  code : String
  maxPercent : ℚ
  maxPercentYr : ℚ
  maxObservations : ℚ
  maxObservationsYr : ℚ
  bestHotspotId : Option String
  weightedAvgPercent : ℚ
  totalChecklists : ℚ
  hotspotCount : ℕ
deriving DecidableEq, Repr

/-- One collected tuple `{percent, N, hotspotId}` of the first pass of
`calculateSpeciesCoverage`. -/
structure CovEntry where
  percent : ℚ
  N : ℚ
  hotspotId : String
deriving DecidableEq, Repr

/-- The three running maxima of the year-stats re-scan of
`calculateSpeciesCoverage` (lines 80–95 of the source). -/
structure YearStats where
  maxObservations : ℚ
  maxObservationsYr : ℚ
  maxPercentYr : ℚ
deriving DecidableEq, Repr

/-- Result row of `getHotspotSpeciesImportance`. -/
structure HotspotSpeciesImportance where
  isBestAtThisHotspot : Bool
  isCritical : Bool
deriving DecidableEq, Repr

/-- Result row of `getDaySpeciesImportance`. -/
structure DaySpeciesImportance where
  isBestDay : Bool
  isSubstantiallyBetterDay : Bool
deriving DecidableEq, Repr

/-- One stop of an itinerary day; only stops with `type = "hotspot"`
participate in the day-importance computation. -/
structure DayStop where
  type : String
  locationId : String
deriving DecidableEq, Repr

/-- One itinerary day (the `Day` type of `@birdplan/shared`, restricted to the
field the engine reads; a missing `locations` array is modelled as `[]`,
matching `day.locations ?? []` in the source). -/
structure Day where
  locations : List DayStop
deriving DecidableEq, Repr

/-- An entry of the hotspot name directory passed to the rankers. -/
structure HotspotInfo where
  id : String
  name : String
deriving DecidableEq, Repr

/-- Result row of `getBestHotspotsForSpecies` / `getAllHotspotsForSpecies`. -/
structure BestHotspotRow where
  hotspotId : String
  hotspotName : String
  percent : ℚ
  N : ℚ
deriving DecidableEq, Repr

/-- The JS truthiness guard on `target.hotspotId` used by every aggregation
filter (`if (!target.hotspotId) continue` and `t.hotspotId && …`):
`undefined` and the empty string are falsy, anything else yields the id. -/
def idOf (t : HotspotTargetData) : Option String :=
  match t.hotspotId with
  | none => none
  | some s => if s = "" then none else some s

/-- Insert `x` into a list assumed sorted descending by key `k`, placing `x`
before the first element whose key is ≤ `k x`.  Since `sortDescBy` inserts
earlier input elements later, an earlier element ties ahead of a later one:
this is exactly the stable descending sort of JS `sort((a, b) => k b - k a)`. -/
def insertDescBy (k : α → ℚ) (x : α) : List α → List α
  | [] => [x]
  | y :: ys => if k y ≤ k x then x :: y :: ys else y :: insertDescBy k x ys

/-- Stable descending insertion sort by key `k`. -/
def sortDescBy (k : α → ℚ) : List α → List α
  | [] => []
  | x :: xs => insertDescBy k x (sortDescBy k xs)

/-- Largest key of a list (0 for the empty list, which is never consulted). -/
def maxKeyOf (k : α → ℚ) : List α → ℚ
  | [] => 0
  | [x] => k x
  | x :: y :: ys => max (k x) (maxKeyOf k (y :: ys))

/-- Smallest key of a list (0 for the empty list, which is never consulted). -/
def minKeyOf (k : α → ℚ) : List α → ℚ
  | [] => 0
  | [x] => k x
  | x :: y :: ys => min (k x) (minKeyOf k (y :: ys))

/-- JS `Math.round`: round half toward positive infinity.  `Rat.floor` is
used because it is the computable floor of `ℚ` (definitionally `⌊·⌋`). -/
def jsRound (q : ℚ) : ℤ := Rat.floor (q + 1/2)

/-- JS `Math.round(q * 10) / 10`: round to one decimal place, halves up. -/
def jsRoundTo1 (q : ℚ) : ℚ := (jsRound (q * 10) : ℚ) / 10

/-- Round half away from zero: the rounding rule named by the spec. -/
def roundHalfAwayFromZero (q : ℚ) : ℤ :=
  if 0 ≤ q then ⌊q + 1/2⌋ else -⌊-q + 1/2⌋

/-- Round to one decimal place, halves away from zero (the rounding the spec names). -/
def roundTo1dp (q : ℚ) : ℚ := (roundHalfAwayFromZero (q * 10) : ℚ) / 10

/-- First pass of `calculateSpeciesCoverage` (source lines 44–57), read off
for one species code: the `{percent, N, hotspotId}` tuples pushed for `code`,
in input order (targets outer, items inner), skipping id-less targets. -/
def speciesEntries (ts : List HotspotTargetData) (code : String) : List CovEntry :=
  ts.flatMap fun t =>
    match idOf t with
    | none => []
    | some h =>
      (t.items.filter fun it => decide (it.code = code)).map fun it =>
        { percent := it.percent, N := t.N, hotspotId := h }

/-- Loop body of the year-stats re-scan of `calculateSpeciesCoverage` (source
lines 85–95): skip falsy ids, look up the first item carrying `code`, update
the three running maxima with strict `>` comparisons. -/
def yearStep (code : String) (acc : YearStats) (t : HotspotTargetData) : YearStats :=
  match idOf t with
  | none => acc
  | some _ =>
    match t.items.find? (fun it => decide (it.code = code)) with
    | none => acc
    | some it =>
      let obsYr := it.percentYr * t.yrN / 100
      let acc1 : YearStats :=
        { acc with maxObservationsYr :=
            if acc.maxObservationsYr < obsYr then obsYr else acc.maxObservationsYr }
      let acc2 : YearStats :=
        { acc1 with maxPercentYr :=
            if acc1.maxPercentYr < it.percentYr then it.percentYr else acc1.maxPercentYr }
      let obs := it.percent * t.N / 100
      { acc2 with maxObservations :=
          if acc2.maxObservations < obs then obs else acc2.maxObservations }

/-- Year-stats re-scan of `calculateSpeciesCoverage` (source lines 80–95):
running maxima over all qualifying targets, starting from zeroes. -/
def yearStats (ts : List HotspotTargetData) (code : String) : YearStats :=
  ts.foldl (yearStep code) { maxObservations := 0, maxObservationsYr := 0, maxPercentYr := 0 }

/-- The `topHotspots` list of `calculateSpeciesCoverage`: the tuples of the species
sorted by percent descending (stable), truncated to the first `topN`. -/
def topEntries (ts : List HotspotTargetData) (topN : ℕ) (code : String) : List CovEntry :=
  (sortDescBy CovEntry.percent (speciesEntries ts code)).take topN

/-- Second pass of `calculateSpeciesCoverage` for one species, as a function
of the collected tuples and the year-stats (both are functions of the input
alone): sort stably by percent descending, take the top `topN`, accumulate
the weighted sums, special-case `ΣN = 0` to 0, round to one decimal. -/
def coverageFromParts (entries : List CovEntry) (ys : YearStats) (topN : ℕ)
    (code : String) : Option SpeciesCoverage :=
  match sortDescBy CovEntry.percent entries with
  | [] => none
  | best :: rest =>
    let top := (best :: rest).take topN
    let totalWeightedPercent := (top.map fun hs => hs.percent * hs.N).sum
    let totalChecklists := (top.map CovEntry.N).sum
    let weightedAvgPercent :=
      if 0 < totalChecklists then totalWeightedPercent / totalChecklists else 0
    some
      { code := code
        maxPercent := best.percent
        maxPercentYr := ys.maxPercentYr
        maxObservations := ys.maxObservations
        maxObservationsYr := ys.maxObservationsYr
        bestHotspotId := some best.hotspotId
        weightedAvgPercent := jsRoundTo1 weightedAvgPercent
        totalChecklists := totalChecklists
        hotspotCount := top.length }

/-- Source `calculateSpeciesCoverage` (default `topN = 5` applied at call
sites), modelled extensionally: the value the returned map holds at `code`.
The map has a key exactly for the codes with at least one collected tuple. -/
def calculateSpeciesCoverage (ts : List HotspotTargetData) (topN : ℕ) (code : String) :
    Option SpeciesCoverage :=
  coverageFromParts (speciesEntries ts code) (yearStats ts code) topN code

/-- Source `isLowCoverageSpecies` (defaults `percentThreshold = 15`,
`observationsThreshold = 10` applied at call sites). -/
def isLowCoverageSpecies (coverage : Option SpeciesCoverage)
    (percentThreshold : ℚ) (observationsThreshold : ℚ) : Bool :=
  match coverage with
  | none => true
  | some c =>
    decide (c.maxPercent < percentThreshold) || decide (c.maxObservations < observationsThreshold)

/-- Source `getHotspotSpeciesImportance`, modelled extensionally at one
species code.  The matched target is `allTargets.find(t => t.hotspotId ===
hotspotId)` (plain equality, no truthiness); a repeated code in its item list
overwrites the map entry with the identical value, so membership via `any`
is extensionally exact. -/
def getHotspotSpeciesImportance (ts : List HotspotTargetData) (hotspotId : String)
    (code : String) : Option HotspotSpeciesImportance :=
  match ts.find? (fun t => decide (t.hotspotId = some hotspotId)) with
  | none => none
  | some t =>
    if t.items.isEmpty then none
    else if t.items.any (fun it => decide (it.code = code)) then
      let cov := calculateSpeciesCoverage ts 5 code
      some
        { isBestAtThisHotspot :=
            match cov with
            | none => false
            | some c => decide (c.bestHotspotId = some hotspotId)
          isCritical := isLowCoverageSpecies cov 15 10 }
    else none

/-- The fixed 5-point lead constant `BEST_DAY_MIN_LEAD_PERCENT`. -/
def BEST_DAY_MIN_LEAD_PERCENT : ℚ := 5

/-- Source helper `getPercent` of `getDaySpeciesImportance`: percent of
`code` at the first target whose `hotspotId` equals `hid`, 0 on any miss. -/
def getPercent (ts : List HotspotTargetData) (hid : String) (code : String) : ℚ :=
  match ts.find? (fun t => decide (t.hotspotId = some hid)) with
  | none => 0
  | some t =>
    match t.items.find? (fun it => decide (it.code = code)) with
    | none => 0
    | some it => it.percent

/-- Whether the item list of any target mentions `code` (the `speciesCodes` set of
the source, which is collected from all targets, id-less ones included). -/
def hasSpecies (ts : List HotspotTargetData) (code : String) : Bool :=
  ts.any fun t => t.items.any fun it => decide (it.code = code)

/-- Best percent of `code` over the hotspot-type stops of day `d` (0 when the
day has no such stop or is out of range): the inner loop of
`getDaySpeciesImportance` with its running strict-`>` maximum started at 0. -/
def dayBest (ts : List HotspotTargetData) (itin : List Day) (d : ℕ) (code : String) : ℚ :=
  let day := itin.getD d { locations := [] }
  let hotspotIds :=
    (day.locations.filter fun loc => decide (loc.type = "hotspot")).map DayStop.locationId
  hotspotIds.foldl (fun best hid =>
    let p := getPercent ts hid code
    if best < p then p else best) 0

/-- The `dayBestPercents` array of the source: one `(dayIndex, bestPercent)`
pair per itinerary day, in day order. -/
def dayBestPercents (ts : List HotspotTargetData) (itin : List Day) (code : String) :
    List (ℕ × ℚ) :=
  (List.range itin.length).map fun d => (d, dayBest ts itin d code)

/-- The `sorted` array of the source: `dayBestPercents` stably sorted by
`bestPercent` descending. -/
def daySorted (ts : List HotspotTargetData) (itin : List Day) (code : String) :
    List (ℕ × ℚ) :=
  sortDescBy (fun x => x.2) (dayBestPercents ts itin code)

/-- The `secondBestPercent` of the source: `sorted[1]?.bestPercent ?? 0`. -/
def daySecond (ts : List HotspotTargetData) (itin : List Day) (code : String) : ℚ :=
  (((daySorted ts itin code).drop 1).head?.map (fun x => x.2)).getD 0

/-- The maximum `bestPercent` over all days of the itinerary for a species
(the value held by `top` in the source once the sort is done). -/
def dayMaxBest (ts : List HotspotTargetData) (itin : List Day) (code : String) : ℚ :=
  maxKeyOf (fun x => x.2) (dayBestPercents ts itin code)

/-- Source `getDaySpeciesImportance`, modelled extensionally: the value held
by the result at day index `d` and species `code`. -/
def getDaySpeciesImportance (ts : List HotspotTargetData) (itin : List Day)
    (d : ℕ) (code : String) : Option DaySpeciesImportance :=
  if ts.isEmpty || itin.isEmpty then none
  else if !hasSpecies ts code then none
  else
    match (daySorted ts itin code).head? with
    | none => none
    | some top =>
      if top.2 = 0 then none
      else
        let isSub := decide (BEST_DAY_MIN_LEAD_PERCENT ≤ top.2 - daySecond ts itin code)
        if d < itin.length then
          let bp := dayBest ts itin d code
          if bp = 0 then none
          else some
            { isBestDay := decide (d = top.1)
              isSubstantiallyBetterDay := decide (d = top.1) && isSub }
        else none

/-- The percent of `code` at target `t`:
`(t.items.find(it => it.code === code)?.percent ?? 0)`. -/
def speciesPercentAt (code : String) (t : HotspotTargetData) : ℚ :=
  ((t.items.find? fun it => decide (it.code = code)).map TargetItem.percent).getD 0

/-- The row built by both rankers for a qualifying target with (truthy) id
`h`: name resolved through the directory, `"Hotspot"` when unresolved. -/
def hotspotRow (code : String) (hotspots : List HotspotInfo) (h : String)
    (t : HotspotTargetData) : BestHotspotRow :=
  { hotspotId := h
    hotspotName := ((hotspots.find? fun hs => decide (hs.id = h)).map HotspotInfo.name).getD "Hotspot"
    percent := speciesPercentAt code t
    N := t.N }

/-- Source `getBestHotspotsForSpecies`.  `HOTSPOT_TARGET_CUTOFF` lives in
`lib/config` outside the sources at hand and is kept as the parameter
`cutoff` (the spec calls it externally configured, with value 5%). -/
def getBestHotspotsForSpecies (code : String) (ts : List HotspotTargetData)
    (locationIds : List String) (hotspots : List HotspotInfo) (cutoff : ℚ) :
    List BestHotspotRow :=
  sortDescBy BestHotspotRow.percent
    ((ts.filter fun t =>
        (idOf t).isSome &&
        decide ((idOf t).getD "" ∈ locationIds) &&
        decide (cutoff ≤ speciesPercentAt code t)).map fun t =>
      hotspotRow code hotspots ((idOf t).getD "") t)

/-- Source `getAllHotspotsForSpecies`: identical pipeline, filter `> 0`. -/
def getAllHotspotsForSpecies (code : String) (ts : List HotspotTargetData)
    (locationIds : List String) (hotspots : List HotspotInfo) :
    List BestHotspotRow :=
  sortDescBy BestHotspotRow.percent
    ((ts.filter fun t =>
        (idOf t).isSome &&
        decide ((idOf t).getD "" ∈ locationIds) &&
        decide (0 < speciesPercentAt code t)).map fun t =>
      hotspotRow code hotspots ((idOf t).getD "") t)

/-- Following the words of the spec for `bestLocationsForSpecies`: all qualifying locations
(has an id, id allowed, species percent ≥ cutoff) as rows, sorted by percent
descending with a stable sort. -/
def bestLocationsForSpeciesSpec (code : String) (ts : List HotspotTargetData)
    (locationIds : List String) (hotspots : List HotspotInfo) (cutoff : ℚ) :
    List BestHotspotRow :=
  sortDescBy BestHotspotRow.percent
    (ts.filterMap fun t =>
      match idOf t with
      | none => none
      | some h =>
        if h ∈ locationIds ∧ cutoff ≤ speciesPercentAt code t then
          some (hotspotRow code hotspots h t)
        else none)

/-- Following the words of the spec for `allLocationsForSpecies`: identical to
`bestLocationsForSpeciesSpec` with the filter `percent > 0`. -/
def allLocationsForSpeciesSpec (code : String) (ts : List HotspotTargetData)
    (locationIds : List String) (hotspots : List HotspotInfo) :
    List BestHotspotRow :=
  sortDescBy BestHotspotRow.percent
    (ts.filterMap fun t =>
      match idOf t with
      | none => none
      | some h =>
        if h ∈ locationIds ∧ 0 < speciesPercentAt code t then
          some (hotspotRow code hotspots h t)
        else none)

/-! Concrete data used by witnesses and counterexamples. -/

/-- Scenario A of the spec: two locations reporting species `"ROBI"`. -/
def tsA : List HotspotTargetData :=
  [{ hotspotId := some "H1", items := [{ code := "ROBI", name := "American Robin", percent := 40, percentYr := 40 }], N := 20, yrN := 20 },
   { hotspotId := some "H2", items := [{ code := "ROBI", name := "American Robin", percent := 60, percentYr := 60 }], N := 5, yrN := 5 }]

/-- The coverage Scenario A produces for `"ROBI"`. -/
def covA : SpeciesCoverage :=
  { code := "ROBI", maxPercent := 60, maxPercentYr := 60, maxObservations := 8,
    maxObservationsYr := 8, bestHotspotId := some "H2", weightedAvgPercent := 44,
    totalChecklists := 25, hotspotCount := 2 }

/-- One location where `"X"` has percent 30; visited on both days below. -/
def tsTie : List HotspotTargetData :=
  [{ hotspotId := some "H1", items := [{ code := "X", name := "X", percent := 30, percentYr := 30 }], N := 1, yrN := 1 }]

/-- A two-day itinerary visiting the same hotspot both days. -/
def itinTie : List Day :=
  [{ locations := [{ type := "hotspot", locationId := "H1" }] },
   { locations := [{ type := "hotspot", locationId := "H1" }] }]

/-- Scenario C of the spec: `"X"` at 30% at the stop of day 0, 10% at the stop of day 1. -/
def tsC : List HotspotTargetData :=
  [{ hotspotId := some "H1", items := [{ code := "X", name := "X", percent := 30, percentYr := 30 }], N := 1, yrN := 1 },
   { hotspotId := some "H2", items := [{ code := "X", name := "X", percent := 10, percentYr := 10 }], N := 1, yrN := 1 }]

/-- The itinerary of Scenario C. -/
def itinC : List Day :=
  [{ locations := [{ type := "hotspot", locationId := "H1" }] },
   { locations := [{ type := "hotspot", locationId := "H2" }] }]

/-- A single location where `"X"` has percent 1/25 = 0.04: the weighted
average 0.04 rounds to 0.0, strictly below the smallest top-K percent. -/
def tsTiny : List HotspotTargetData :=
  [{ hotspotId := some "H1", items := [{ code := "X", name := "X", percent := 1/25, percentYr := 0 }], N := 1, yrN := 1 }]

/-- A target whose `hotspotId` is the empty string: matched by the plain
equality `find` of `getHotspotSpeciesImportance` but skipped (falsy) by the
aggregation of `calculateSpeciesCoverage`. -/
def tsEmptyId : List HotspotTargetData :=
  [{ hotspotId := some "", items := [{ code := "X", name := "X", percent := 30, percentYr := 30 }], N := 1, yrN := 1 }]

/-- A dataset where species `"Z"` occurs only at an id-less target. -/
def tsIdless : List HotspotTargetData :=
  [{ hotspotId := none, items := [{ code := "Z", name := "Z", percent := 50, percentYr := 50 }], N := 3, yrN := 3 }]

/-- One location where `"X"` is never seen (percent 0). -/
def tsZero : List HotspotTargetData :=
  [{ hotspotId := some "H1", items := [{ code := "X", name := "X", percent := 0, percentYr := 0 }], N := 1, yrN := 1 }]

/-- A one-day itinerary visiting `"H1"`. -/
def itinOne : List Day :=
  [{ locations := [{ type := "hotspot", locationId := "H1" }] }]

example : calculateSpeciesCoverage tsA 5 "ROBI" = some covA := by decide
example : getDaySpeciesImportance tsTie itinTie 1 "X" =
    some { isBestDay := false, isSubstantiallyBetterDay := false } := by decide
example : getDaySpeciesImportance tsC itinC 0 "X" =
    some { isBestDay := true, isSubstantiallyBetterDay := true } := by decide
example : (calculateSpeciesCoverage tsTiny 5 "X").map SpeciesCoverage.weightedAvgPercent
    = some 0 := by decide
example : getHotspotSpeciesImportance tsEmptyId "" "X" =
    some { isBestAtThisHotspot := false, isCritical := true } := by decide
example : calculateSpeciesCoverage tsEmptyId 5 "X" = none := by decide

/-! Helper lemmas about the stable descending sort. -/

variable {α : Type*}

theorem mem_insertDescBy {k : α → ℚ} {x a : α} {l : List α} :
    a ∈ insertDescBy k x l ↔ a = x ∨ a ∈ l := by
  induction l with
  | nil => simp [insertDescBy]
  | cons y ys ih =>
    simp only [insertDescBy]
    split
    · simp [List.mem_cons]
    · simp only [List.mem_cons, ih]
      tauto

theorem mem_sortDescBy {k : α → ℚ} {a : α} {l : List α} :
    a ∈ sortDescBy k l ↔ a ∈ l := by
  induction l with
  | nil => simp [sortDescBy]
  | cons x xs ih => simp [sortDescBy, mem_insertDescBy, ih]

theorem length_insertDescBy (k : α → ℚ) (x : α) (l : List α) :
    (insertDescBy k x l).length = l.length + 1 := by
  induction l with
  | nil => rfl
  | cons y ys ih =>
    simp only [insertDescBy]
    split <;> simp [ih]

theorem length_sortDescBy (k : α → ℚ) (l : List α) :
    (sortDescBy k l).length = l.length := by
  induction l with
  | nil => rfl
  | cons x xs ih => simp [sortDescBy, length_insertDescBy, ih]

theorem sortDescBy_ne_nil {k : α → ℚ} {l : List α} (h : l ≠ []) : sortDescBy k l ≠ [] := by
  intro hs
  apply h
  have hlen := length_sortDescBy k l
  rw [hs] at hlen
  exact List.eq_nil_of_length_eq_zero hlen.symm

theorem le_maxKeyOf {k : α → ℚ} {a : α} : ∀ {l : List α}, a ∈ l → k a ≤ maxKeyOf k l
  | [], h => absurd h (List.not_mem_nil a)
  | [x], h => by
    rcases List.mem_singleton.mp h with rfl
    simp [maxKeyOf]
  | x :: y :: ys, h => by
    rcases List.mem_cons.mp h with rfl | h'
    · simpa only [maxKeyOf] using le_max_left (k a) (maxKeyOf k (y :: ys))
    · have hrec := le_maxKeyOf (k := k) (a := a) h'
      simp only [maxKeyOf]
      exact hrec.trans (le_max_right _ _)

theorem minKeyOf_le {k : α → ℚ} {a : α} : ∀ {l : List α}, a ∈ l → minKeyOf k l ≤ k a
  | [], h => absurd h (List.not_mem_nil a)
  | [x], h => by
    rcases List.mem_singleton.mp h with rfl
    simp [minKeyOf]
  | x :: y :: ys, h => by
    rcases List.mem_cons.mp h with rfl | h'
    · simpa only [minKeyOf] using min_le_left (k a) (minKeyOf k (y :: ys))
    · have hrec := minKeyOf_le (k := k) (a := a) h'
      simp only [minKeyOf]
      exact (min_le_right _ _).trans hrec

theorem head?_insertDescBy (k : α → ℚ) (x y : α) (ys : List α) :
    (insertDescBy k x (y :: ys)).head? = if k y ≤ k x then some x else some y := by
  simp only [insertDescBy]
  split <;> rfl

theorem head?_sortDescBy {k : α → ℚ} :
    ∀ {l : List α}, l ≠ [] →
      (sortDescBy k l).head? = l.find? fun a => decide (k a = maxKeyOf k l)
  | [], h => absurd rfl h
  | [x], _ => by simp [sortDescBy, insertDescBy, maxKeyOf, List.find?]
  | x :: y :: ys, _ => by
    have hne : (y :: ys) ≠ ([] : List α) := by simp
    have ih := head?_sortDescBy (k := k) (l := y :: ys) hne
    obtain ⟨b, bs, hbs⟩ : ∃ b bs, sortDescBy k (y :: ys) = b :: bs := by
      cases hs : sortDescBy k (y :: ys) with
      | nil => exact absurd hs (sortDescBy_ne_nil hne)
      | cons b bs => exact ⟨b, bs, rfl⟩
    have hfind : (y :: ys).find? (fun a => decide (k a = maxKeyOf k (y :: ys))) = some b := by
      rw [← ih, hbs]; rfl
    have hkb : k b = maxKeyOf k (y :: ys) := by
      simpa using List.find?_some hfind
    show (insertDescBy k x (sortDescBy k (y :: ys))).head? = _
    rw [hbs, head?_insertDescBy]
    by_cases hc : k b ≤ k x
    · rw [if_pos hc]
      have hM : maxKeyOf k (x :: y :: ys) = k x := by
        simp only [maxKeyOf]
        exact max_eq_left (hkb ▸ hc)
      rw [List.find?_cons_of_pos]
      simp [hM]
    · rw [if_neg hc]
      have hlt : k x < k b := not_le.mp hc
      have hM : maxKeyOf k (x :: y :: ys) = maxKeyOf k (y :: ys) := by
        simp only [maxKeyOf]
        exact max_eq_right (hkb ▸ hlt.le)
      simp only [hM]
      rw [List.find?_cons_of_neg]
      · exact hfind.symm
      · simp only [decide_eq_true_eq]
        rw [← hkb]
        exact hlt.ne

theorem pairwise_insertDescBy {k : α → ℚ} {x : α} {l : List α}
    (h : l.Pairwise fun a b => k b ≤ k a) :
    (insertDescBy k x l).Pairwise fun a b => k b ≤ k a := by
  induction l with
  | nil => simp [insertDescBy]
  | cons y ys ih =>
    rcases List.pairwise_cons.mp h with ⟨hy, hys⟩
    simp only [insertDescBy]
    split
    · next hc =>
      refine List.pairwise_cons.mpr ⟨?_, h⟩
      intro b hb
      rcases List.mem_cons.mp hb with rfl | hb'
      · exact hc
      · exact (hy b hb').trans hc
    · next hc =>
      refine List.pairwise_cons.mpr ⟨?_, ih hys⟩
      intro b hb
      rcases mem_insertDescBy.mp hb with rfl | hb'
      · exact (not_le.mp hc).le
      · exact hy b hb'

theorem pairwise_sortDescBy (k : α → ℚ) (l : List α) :
    (sortDescBy k l).Pairwise fun a b => k b ≤ k a := by
  induction l with
  | nil => simp [sortDescBy]
  | cons x xs ih => exact pairwise_insertDescBy ih

/-! Helper lemmas about the collected tuples of the first pass. -/

theorem speciesEntries_origin {ts : List HotspotTargetData} {code : String} {e : CovEntry}
    (h : e ∈ speciesEntries ts code) :
    ∃ t ∈ ts, ∃ it ∈ t.items,
      it.code = code ∧ e.percent = it.percent ∧ e.N = t.N ∧ idOf t = some e.hotspotId := by
  simp only [speciesEntries, List.mem_flatMap] at h
  obtain ⟨t, ht, he⟩ := h
  cases hid : idOf t with
  | none => rw [hid] at he; simp at he
  | some hsp =>
    rw [hid] at he
    simp only [List.mem_map, List.mem_filter, decide_eq_true_eq] at he
    obtain ⟨it, ⟨hit, hcode⟩, rfl⟩ := he
    exact ⟨t, ht, it, hit, hcode, rfl, rfl, hid⟩

theorem mem_speciesEntries_of {ts : List HotspotTargetData} {code h' : String}
    {t : HotspotTargetData} {it : TargetItem} (ht : t ∈ ts) (hid : idOf t = some h')
    (hit : it ∈ t.items) (hcode : it.code = code) :
    ({ percent := it.percent, N := t.N, hotspotId := h' } : CovEntry) ∈ speciesEntries ts code := by
  simp only [speciesEntries, List.mem_flatMap]
  refine ⟨t, ht, ?_⟩
  rw [hid]
  simp only [List.mem_map, List.mem_filter, decide_eq_true_eq]
  exact ⟨it, ⟨hit, hcode⟩, rfl⟩

theorem speciesEntries_cons (t : HotspotTargetData) (ts : List HotspotTargetData)
    (code : String) :
    speciesEntries (t :: ts) code =
      (match idOf t with
        | none => []
        | some h =>
          (t.items.filter fun it => decide (it.code = code)).map fun it =>
            ({ percent := it.percent, N := t.N, hotspotId := h } : CovEntry)) ++
        speciesEntries ts code := by
  simp [speciesEntries]

theorem speciesEntries_filter_idless (ts : List HotspotTargetData) (code : String) :
    speciesEntries (ts.filter fun t => (idOf t).isSome) code = speciesEntries ts code := by
  induction ts with
  | nil => rfl
  | cons t ts ih =>
    by_cases hs : (idOf t).isSome = true
    · rw [List.filter_cons, if_pos hs, speciesEntries_cons, speciesEntries_cons, ih]
    · have hid : idOf t = none := Option.not_isSome_iff_eq_none.mp hs
      rw [List.filter_cons, if_neg hs, ih, speciesEntries_cons, hid]
      simp

theorem foldl_yearStep_filter_idless (code : String) (ts : List HotspotTargetData) :
    ∀ acc : YearStats,
      (ts.filter fun t => (idOf t).isSome).foldl (yearStep code) acc =
        ts.foldl (yearStep code) acc := by
  induction ts with
  | nil => intro acc; rfl
  | cons t ts ih =>
    intro acc
    cases hid : idOf t with
    | none =>
      have hfalse : ((idOf t).isSome = false) := by rw [hid]; rfl
      have hstep : yearStep code acc t = acc := by unfold yearStep; rw [hid]
      simp only [List.filter_cons, hfalse, Bool.false_eq_true, if_false, List.foldl_cons, hstep]
      exact ih acc
    | some h =>
      have htrue : ((idOf t).isSome = true) := by rw [hid]; rfl
      simp only [List.filter_cons, htrue, if_true, List.foldl_cons]
      exact ih _

theorem yearStats_filter_idless (ts : List HotspotTargetData) (code : String) :
    yearStats (ts.filter fun t => (idOf t).isSome) code = yearStats ts code := by
  unfold yearStats
  exact foldl_yearStep_filter_idless code ts _

theorem speciesEntries_eq_nil {ts : List HotspotTargetData} {code : String}
    (h : ∀ t ∈ ts, (∃ it ∈ t.items, it.code = code) → idOf t = none) :
    speciesEntries ts code = [] := by
  induction ts with
  | nil => rfl
  | cons t ts ih =>
    have htail : speciesEntries ts code = [] :=
      ih fun t' ht' => h t' (List.mem_cons_of_mem t ht')
    rw [speciesEntries_cons, htail]
    cases hid : idOf t with
    | none => simp
    | some h' =>
      have hfilter : (t.items.filter fun it => decide (it.code = code)) = [] := by
        rw [List.filter_eq_nil_iff]
        intro it hit
        simp only [decide_eq_true_eq]
        intro hcode
        have hn := h t (List.mem_cons_self t ts) ⟨it, hit, hcode⟩
        rw [hn] at hid
        exact Option.noConfusion hid
      rw [hfilter]
      simp

/-- C5: `isLowCoverageSpecies` returns true exactly when the coverage is
absent, or `maxPercent` is below the percent threshold, or `maxObservations`
is below the observations threshold; in particular it returns true on an
absent coverage with the default thresholds 15 and 10, and either threshold
condition alone suffices. -/
theorem isLowCoverage_iff (c : Option SpeciesCoverage) (pt ot : ℚ) :
    (isLowCoverageSpecies c pt ot = true ↔
      c = none ∨ ∃ s, c = some s ∧ (s.maxPercent < pt ∨ s.maxObservations < ot)) ∧
    isLowCoverageSpecies none 15 10 = true := by
  refine ⟨?_, rfl⟩
  cases c with
  | none => simp [isLowCoverageSpecies]
  | some s => simp [isLowCoverageSpecies]

/-- C7: coverage aggregation silently excludes every target whose
`hotspotId` is JS-falsy (absent or empty): the result is unchanged when such
targets are removed from the input, and a species code occurring only in
falsy-id targets gets no entry at all. -/
theorem coverage_skips_idless (ts : List HotspotTargetData) (topN : ℕ) (code : String) :
    calculateSpeciesCoverage ts topN code =
      calculateSpeciesCoverage (ts.filter fun t => (idOf t).isSome) topN code ∧
    ((∀ t ∈ ts, (∃ it ∈ t.items, it.code = code) → idOf t = none) →
      calculateSpeciesCoverage ts topN code = none) := by
  constructor
  · unfold calculateSpeciesCoverage
    rw [speciesEntries_filter_idless, yearStats_filter_idless]
  · intro h
    unfold calculateSpeciesCoverage
    rw [speciesEntries_eq_nil h]
    rfl

/-- Witness for C7 at a concrete input: species `"Z"` occurs only at an
id-less target, so its coverage is absent, and filtering changes nothing. -/
theorem coverage_skips_idless_witness :
    calculateSpeciesCoverage tsIdless 5 "Z" =
      calculateSpeciesCoverage (tsIdless.filter fun t => (idOf t).isSome) 5 "Z" ∧
    (∀ t ∈ tsIdless, (∃ it ∈ t.items, it.code = "Z") → idOf t = none) ∧
    calculateSpeciesCoverage tsIdless 5 "Z" = none :=
  ⟨(coverage_skips_idless tsIdless 5 "Z").1, by decide,
    (coverage_skips_idless tsIdless 5 "Z").2 (by decide)⟩

/-- C8: both rankers agree with the description in the spec — keep exactly the
targets with a (truthy) id that is allowed and whose percent for the species
(0 when absent) clears the bound (`≥ cutoff`, respectively `> 0`), map each
to its row with the directory-resolved name, and sort by percent descending
with the stable sort; both outputs are sorted by percent descending. -/
theorem rankers_match_spec (code : String) (ts : List HotspotTargetData)
    (locationIds : List String) (hotspots : List HotspotInfo) (cutoff : ℚ) :
    getBestHotspotsForSpecies code ts locationIds hotspots cutoff =
      bestLocationsForSpeciesSpec code ts locationIds hotspots cutoff ∧
    getAllHotspotsForSpecies code ts locationIds hotspots =
      allLocationsForSpeciesSpec code ts locationIds hotspots ∧
    (getBestHotspotsForSpecies code ts locationIds hotspots cutoff).Pairwise
      (fun a b => b.percent ≤ a.percent) ∧
    (getAllHotspotsForSpecies code ts locationIds hotspots).Pairwise
      (fun a b => b.percent ≤ a.percent) := by
  refine ⟨?_, ?_, pairwise_sortDescBy _ _, pairwise_sortDescBy _ _⟩
  · unfold getBestHotspotsForSpecies bestLocationsForSpeciesSpec
    congr 1
    induction ts with
    | nil => rfl
    | cons t ts ih =>
      cases hid : idOf t with
      | none => simpa [List.filter_cons, List.filterMap_cons, hid] using ih
      | some h =>
        by_cases h1 : h ∈ locationIds
        · by_cases h2 : cutoff ≤ speciesPercentAt code t
          · simpa [List.filter_cons, List.filterMap_cons, hid, h1, h2] using ih
          · simpa [List.filter_cons, List.filterMap_cons, hid, h1, h2] using ih
        · simpa [List.filter_cons, List.filterMap_cons, hid, h1] using ih
  · unfold getAllHotspotsForSpecies allLocationsForSpeciesSpec
    congr 1
    induction ts with
    | nil => rfl
    | cons t ts ih =>
      cases hid : idOf t with
      | none => simpa [List.filter_cons, List.filterMap_cons, hid] using ih
      | some h =>
        by_cases h1 : h ∈ locationIds
        · by_cases h2 : (0 : ℚ) < speciesPercentAt code t
          · simpa [List.filter_cons, List.filterMap_cons, hid, h1, h2] using ih
          · simpa [List.filter_cons, List.filterMap_cons, hid, h1, h2] using ih
        · simpa [List.filter_cons, List.filterMap_cons, hid, h1] using ih

/-! Helper lemmas about the day-importance resolver. -/

theorem foldl_percent_nonneg (ts : List HotspotTargetData) (code : String) :
    ∀ (l : List String) (acc : ℚ), 0 ≤ acc →
      0 ≤ l.foldl (fun best hid =>
        let p := getPercent ts hid code
        if best < p then p else best) acc
  | [], _, h => h
  | hid :: l, acc, h => by
    rw [List.foldl_cons]
    apply foldl_percent_nonneg ts code l
    show 0 ≤ if acc < getPercent ts hid code then getPercent ts hid code else acc
    split
    · next hlt => exact h.trans hlt.le
    · exact h

theorem dayBest_nonneg (ts : List HotspotTargetData) (itin : List Day) (d : ℕ)
    (code : String) : 0 ≤ dayBest ts itin d code := by
  unfold dayBest
  exact foldl_percent_nonneg ts code _ 0 le_rfl

theorem mem_dayBestPercents {ts : List HotspotTargetData} {itin : List Day} {code : String}
    {x : ℕ × ℚ} (h : x ∈ dayBestPercents ts itin code) :
    x.1 < itin.length ∧ x.2 = dayBest ts itin x.1 code := by
  simp only [dayBestPercents, List.mem_map, List.mem_range] at h
  obtain ⟨i, hi, rfl⟩ := h
  exact ⟨hi, rfl⟩

theorem gDSI_some_iff {ts : List HotspotTargetData} {itin : List Day} {d : ℕ}
    {code : String} {v : DaySpeciesImportance} :
    getDaySpeciesImportance ts itin d code = some v ↔
      ((ts.isEmpty || itin.isEmpty) = false ∧ hasSpecies ts code = true ∧
        ∃ top, (daySorted ts itin code).head? = some top ∧ ¬ top.2 = 0 ∧
          d < itin.length ∧ ¬ dayBest ts itin d code = 0 ∧
          v = { isBestDay := decide (d = top.1)
                isSubstantiallyBetterDay := decide (d = top.1) &&
                  decide (BEST_DAY_MIN_LEAD_PERCENT ≤ top.2 - daySecond ts itin code) }) := by
  unfold getDaySpeciesImportance
  by_cases h1 : (ts.isEmpty || itin.isEmpty) = true
  · simp [h1]
  · by_cases h2 : hasSpecies ts code = true
    · cases htop : (daySorted ts itin code).head? with
      | none =>
        simp [h1, h2, htop]
      | some top =>
        by_cases h3 : top.2 = 0
        · simp [h1, h2, htop, h3]
        · by_cases h4 : d < itin.length
          · by_cases h5 : dayBest ts itin d code = 0
            · simp [h1, h2, htop, h3, h4, h5]
            · simp only [Bool.not_eq_true] at h1
              simp [h1, h2, htop, h3, h4, h5]
              exact eq_comm
          · simp [h1, h2, htop, h3, h4]
    · simp [h1, h2]

theorem daySorted_head_top {ts : List HotspotTargetData} {itin : List Day} {code : String}
    {top : ℕ × ℚ} (hne : itin ≠ [])
    (htop : (daySorted ts itin code).head? = some top) :
    top.2 = dayMaxBest ts itin code ∧
    (List.range itin.length).find?
      (fun i => decide (dayBest ts itin i code = dayMaxBest ts itin code)) = some top.1 ∧
    top.2 = dayBest ts itin top.1 code := by
  have hlen : itin.length ≠ 0 := fun h => hne (List.eq_nil_of_length_eq_zero h)
  have hdbp : dayBestPercents ts itin code ≠ [] := by
    unfold dayBestPercents
    simp [List.range_eq_nil, hlen]
  have hfind := htop
  rw [daySorted, head?_sortDescBy hdbp] at hfind
  have hktop : top.2 = maxKeyOf (fun x => x.2) (dayBestPercents ts itin code) := by
    simpa using List.find?_some hfind
  have hmem : top ∈ dayBestPercents ts itin code :=
    List.mem_of_find?_eq_some hfind
  have hbest := (mem_dayBestPercents hmem).2
  refine ⟨hktop, ?_, hbest⟩
  rw [show maxKeyOf (fun x : ℕ × ℚ => x.2) (dayBestPercents ts itin code) =
      dayMaxBest ts itin code from rfl] at hfind
  rw [show dayBestPercents ts itin code =
      List.map (fun d => (d, dayBest ts itin d code)) (List.range itin.length) from rfl] at hfind
  rw [List.find?_map] at hfind
  have hcomp :
      ((fun x : ℕ × ℚ => decide (x.2 = dayMaxBest ts itin code)) ∘
        fun d => (d, dayBest ts itin d code)) =
      fun i => decide (dayBest ts itin i code = dayMaxBest ts itin code) := by
    funext i
    rfl
  rw [hcomp] at hfind
  cases hr : (List.range itin.length).find?
      (fun i => decide (dayBest ts itin i code = dayMaxBest ts itin code)) with
  | none => rw [hr] at hfind; exact Option.noConfusion hfind
  | some i0 =>
    rw [hr] at hfind
    have htop1 : (i0, dayBest ts itin i0 code) = top := by
      simpa using hfind
    rw [← htop1]

/-- C3 counterexample: with the same 30%-hotspot visited on both days, the day-1
`bestPercent` (30) equals the maximum over all days (30), yet the recorded
`isBestDay` is `false` — the flag marks only the single sort-selected day,
not every day achieving the top value. -/
theorem dayImportance_best_iff_cex :
    getDaySpeciesImportance tsTie itinTie 1 "X" =
      some { isBestDay := false, isSubstantiallyBetterDay := false } ∧
    dayBest tsTie itinTie 1 "X" = 30 ∧
    dayMaxBest tsTie itinTie "X" = 30 := by
  refine ⟨by decide, by decide, by decide⟩

/-- C3 (amended): for every recorded day/species entry, `isBestDay` is true
iff this day is the day the stable sort put on top: the FIRST day (lowest
index) whose `bestPercent` equals the maximum over all days; and
`isSubstantiallyBetterDay` is true iff `isBestDay` holds and the top value
exceeds the value of the second-best day by at least the 5-point constant. -/
theorem dayImportance_flags (ts : List HotspotTargetData) (itin : List Day) (d : ℕ)
    (code : String) (v : DaySpeciesImportance)
    (h : getDaySpeciesImportance ts itin d code = some v) :
    (v.isBestDay = true ↔
      (List.range itin.length).find?
        (fun i => decide (dayBest ts itin i code = dayMaxBest ts itin code)) = some d) ∧
    (v.isSubstantiallyBetterDay = true ↔
      v.isBestDay = true ∧
      BEST_DAY_MIN_LEAD_PERCENT ≤ dayMaxBest ts itin code - daySecond ts itin code) := by
  obtain ⟨h1, h2, top, htop, h3, h4, h5, rfl⟩ := gDSI_some_iff.mp h
  have hne : itin ≠ [] := by
    intro hnil
    rw [hnil] at h1
    simp at h1
  obtain ⟨hmax, hfind, _⟩ := daySorted_head_top hne htop
  constructor
  · simp only [decide_eq_true_eq]
    constructor
    · rintro rfl
      exact hfind
    · intro hd
      rw [hfind] at hd
      exact (Option.some.injEq _ _ ▸ hd).symm
  · simp only [Bool.and_eq_true, decide_eq_true_eq, hmax]

/-- Witness for C3 (amended) at Scenario C: day 0 is recorded with both flags
true, and the amended characterisation holds there. -/
theorem dayImportance_flags_witness :
    getDaySpeciesImportance tsC itinC 0 "X" =
      some { isBestDay := true, isSubstantiallyBetterDay := true } ∧
    ((DaySpeciesImportance.isBestDay
        { isBestDay := true, isSubstantiallyBetterDay := true } = true ↔
      (List.range itinC.length).find?
        (fun i => decide (dayBest tsC itinC i "X" = dayMaxBest tsC itinC "X")) = some 0) ∧
     (DaySpeciesImportance.isSubstantiallyBetterDay
        { isBestDay := true, isSubstantiallyBetterDay := true } = true ↔
      DaySpeciesImportance.isBestDay
        { isBestDay := true, isSubstantiallyBetterDay := true } = true ∧
      BEST_DAY_MIN_LEAD_PERCENT ≤ dayMaxBest tsC itinC "X" - daySecond tsC itinC "X")) :=
  ⟨by decide, dayImportance_flags tsC itinC 0 "X"
    { isBestDay := true, isSubstantiallyBetterDay := true } (by decide)⟩

/-- C9: whenever a species appears anywhere in the day-importance output,
exactly one day carries `isBestDay = true` — even when several days tie for
the maximum, only the sort-selected day is flagged. -/
theorem dayImportance_unique_best (ts : List HotspotTargetData) (itin : List Day)
    (code : String)
    (h : ∃ d v, getDaySpeciesImportance ts itin d code = some v) :
    ∃! d, ∃ v, getDaySpeciesImportance ts itin d code = some v ∧ v.isBestDay = true := by
  obtain ⟨d0, v0, h0⟩ := h
  obtain ⟨h1, h2, top, htop, h3, h4, h5, rfl⟩ := gDSI_some_iff.mp h0
  have hmem : top ∈ dayBestPercents ts itin code := by
    rw [daySorted] at htop
    exact mem_sortDescBy.mp (List.mem_of_mem_head? htop)
  obtain ⟨hlt, hbv⟩ := mem_dayBestPercents hmem
  have hentry : getDaySpeciesImportance ts itin top.1 code = some
      { isBestDay := decide (top.1 = top.1)
        isSubstantiallyBetterDay := decide (top.1 = top.1) &&
          decide (BEST_DAY_MIN_LEAD_PERCENT ≤ top.2 - daySecond ts itin code) } :=
    gDSI_some_iff.mpr ⟨h1, h2, top, htop, h3, hlt, by rw [← hbv]; exact h3, rfl⟩
  refine ⟨top.1, ⟨_, hentry, by simp⟩, ?_⟩
  intro y hy
  obtain ⟨vy, hvy, hbest⟩ := hy
  obtain ⟨_, _, top', htop', _, _, _, rfl⟩ := gDSI_some_iff.mp hvy
  have htt : top' = top := by
    rw [htop] at htop'
    exact (Option.some_injective _ htop').symm
  rw [htt] at hbest
  simpa using hbest

/-- Witness for C9 at Scenario C: an entry exists, and day 0 is the unique
day flagged as best for `"X"`. -/
theorem dayImportance_unique_best_witness :
    getDaySpeciesImportance tsC itinC 0 "X" =
      some { isBestDay := true, isSubstantiallyBetterDay := true } ∧
    ∃! d, ∃ v, getDaySpeciesImportance tsC itinC d "X" = some v ∧ v.isBestDay = true :=
  ⟨by decide, dayImportance_unique_best tsC itinC "X"
    ⟨0, { isBestDay := true, isSubstantiallyBetterDay := true }, by decide⟩⟩

/-- C6: the day-importance output records a (day, species) pair only when
the `bestPercent` of that day is strictly positive, and a species whose
`bestPercent` is 0 on every day of the itinerary gets no entry on any day. -/
theorem dayImportance_zero_suppression (ts : List HotspotTargetData) (itin : List Day)
    (d : ℕ) (code : String) :
    (∀ v, getDaySpeciesImportance ts itin d code = some v →
      0 < dayBest ts itin d code) ∧
    ((∀ d' < itin.length, dayBest ts itin d' code = 0) →
      getDaySpeciesImportance ts itin d code = none) := by
  constructor
  · intro v hv
    obtain ⟨_, _, top, _, _, _, h5, _⟩ := gDSI_some_iff.mp hv
    exact lt_of_le_of_ne (dayBest_nonneg ts itin d code) (Ne.symm h5)
  · intro hz
    by_contra hne
    obtain ⟨v, hv⟩ := Option.ne_none_iff_exists'.mp hne
    obtain ⟨h1, h2, top, htop, h3, h4, h5, _⟩ := gDSI_some_iff.mp hv
    have hmem : top ∈ dayBestPercents ts itin code := by
      rw [daySorted] at htop
      exact mem_sortDescBy.mp (List.mem_of_mem_head? htop)
    obtain ⟨hlt, hbv⟩ := mem_dayBestPercents hmem
    exact h3 (hbv.trans (hz top.1 hlt))

/-- Witness for C6: at Scenario C, day 0 holds an entry for `"X"` and its
best percent is positive; on the all-zero dataset, the `bestPercent` of every day
is 0 and the output holds no entry. -/
theorem dayImportance_zero_suppression_witness :
    (getDaySpeciesImportance tsC itinC 0 "X" =
        some { isBestDay := true, isSubstantiallyBetterDay := true } ∧
      0 < dayBest tsC itinC 0 "X") ∧
    ((∀ d' < itinOne.length, dayBest tsZero itinOne d' "X" = 0) ∧
      getDaySpeciesImportance tsZero itinOne 0 "X" = none) :=
  ⟨⟨by decide, (dayImportance_zero_suppression tsC itinC 0 "X").1
      { isBestDay := true, isSubstantiallyBetterDay := true } (by decide)⟩,
   ⟨by decide, (dayImportance_zero_suppression tsZero itinOne 0 "X").2 (by decide)⟩⟩

/-! Helper lemmas about the coverage aggregator and the rounding step. -/

theorem calcCov_some {ts : List HotspotTargetData} {topN : ℕ} {code : String}
    {cov : SpeciesCoverage} (h : calculateSpeciesCoverage ts topN code = some cov) :
    ∃ best rest, sortDescBy CovEntry.percent (speciesEntries ts code) = best :: rest ∧
      cov = { code := code
              maxPercent := best.percent
              maxPercentYr := (yearStats ts code).maxPercentYr
              maxObservations := (yearStats ts code).maxObservations
              maxObservationsYr := (yearStats ts code).maxObservationsYr
              bestHotspotId := some best.hotspotId
              weightedAvgPercent := jsRoundTo1
                (if 0 < (((best :: rest).take topN).map CovEntry.N).sum
                 then (((best :: rest).take topN).map fun hs => hs.percent * hs.N).sum /
                   (((best :: rest).take topN).map CovEntry.N).sum
                 else 0)
              totalChecklists := (((best :: rest).take topN).map CovEntry.N).sum
              hotspotCount := ((best :: rest).take topN).length } := by
  unfold calculateSpeciesCoverage coverageFromParts at h
  cases hs : sortDescBy CovEntry.percent (speciesEntries ts code) with
  | nil => rw [hs] at h; exact Option.noConfusion h
  | cons best rest =>
    rw [hs] at h
    exact ⟨best, rest, rfl, (Option.some_injective _ h).symm⟩

theorem jsRound_eq_floor (q : ℚ) : jsRound q = ⌊q + 1/2⌋ := rfl

theorem jsRoundTo1_eq_roundTo1dp {q : ℚ} (h : 0 ≤ q) : jsRoundTo1 q = roundTo1dp q := by
  unfold jsRoundTo1 roundTo1dp roundHalfAwayFromZero
  rw [if_pos (by positivity : (0:ℚ) ≤ q * 10)]
  rfl

theorem jsRoundTo1_le_add (q : ℚ) : jsRoundTo1 q ≤ q + 1/20 := by
  unfold jsRoundTo1
  rw [jsRound_eq_floor]
  have h1 : ((⌊q * 10 + 1/2⌋ : ℤ) : ℚ) ≤ q * 10 + 1/2 := Int.floor_le _
  linarith

theorem sub_lt_jsRoundTo1 (q : ℚ) : q - 1/20 < jsRoundTo1 q := by
  unfold jsRoundTo1
  rw [jsRound_eq_floor]
  have h1 : q * 10 + 1/2 - 1 < ((⌊q * 10 + 1/2⌋ : ℤ) : ℚ) := Int.sub_one_lt_floor _
  linarith

theorem jsRoundTo1_mono {q r : ℚ} (h : q ≤ r) : jsRoundTo1 q ≤ jsRoundTo1 r := by
  unfold jsRoundTo1
  rw [jsRound_eq_floor, jsRound_eq_floor]
  have h1 : ⌊q * 10 + 1/2⌋ ≤ ⌊r * 10 + 1/2⌋ := Int.floor_le_floor (by linarith)
  exact (div_le_div_right (by norm_num)).mpr (by exact_mod_cast h1)

/-- C10 counterexample: with a target whose `hotspotId` is the empty string,
`getHotspotSpeciesImportance` matches it by plain equality and emits an entry
for `"X"`, but the aggregation (which tests JS truthiness) skipped the
target, so the coverage map has no entry for `"X"` at all — `isCritical` came
from the absent-coverage default, not from the thresholds. -/
theorem hotspotImportance_coverage_present_cex :
    getHotspotSpeciesImportance tsEmptyId "" "X" =
      some { isBestAtThisHotspot := false, isCritical := true } ∧
    calculateSpeciesCoverage tsEmptyId 5 "X" = none :=
  ⟨by decide, by decide⟩

/-- C10 (amended): for every hotspot id other than the JS-falsy empty string,
the absent-coverage branch of `isLowCoverageSpecies` is unreachable inside
`getHotspotSpeciesImportance`: every species recorded for the matched
location has a coverage entry (the location itself qualifies), and
`isCritical` equals the threshold classification of that present entry. -/
theorem hotspotImportance_coverage_present (ts : List HotspotTargetData)
    (hid code : String) (hne : hid ≠ "") (imp : HotspotSpeciesImportance)
    (h : getHotspotSpeciesImportance ts hid code = some imp) :
    ∃ cov, calculateSpeciesCoverage ts 5 code = some cov ∧
      imp.isCritical = isLowCoverageSpecies (some cov) 15 10 := by
  unfold getHotspotSpeciesImportance at h
  cases hfind : ts.find? (fun t => decide (t.hotspotId = some hid)) with
  | none => rw [hfind] at h; exact Option.noConfusion h
  | some t =>
    rw [hfind] at h
    dsimp only at h
    have ht : t ∈ ts := List.mem_of_find?_eq_some hfind
    have htid : t.hotspotId = some hid := by simpa using List.find?_some hfind
    by_cases hempty : t.items.isEmpty
    · rw [if_pos hempty] at h; exact Option.noConfusion h
    · rw [if_neg hempty] at h
      by_cases hany : t.items.any (fun it => decide (it.code = code)) = true
      · rw [if_pos hany] at h
        obtain ⟨it, hit, hcode⟩ : ∃ it ∈ t.items, it.code = code := by
          simpa using hany
        have hidOf : idOf t = some hid := by
          unfold idOf
          rw [htid]
          exact if_neg hne
        have hmem := mem_speciesEntries_of ht hidOf hit hcode
        have hne2 : speciesEntries ts code ≠ [] := by
          intro hnil
          rw [hnil] at hmem
          exact List.not_mem_nil _ hmem
        have hsne : sortDescBy CovEntry.percent (speciesEntries ts code) ≠ [] :=
          sortDescBy_ne_nil hne2
        obtain ⟨cov, hcov⟩ : ∃ cov, calculateSpeciesCoverage ts 5 code = some cov := by
          unfold calculateSpeciesCoverage coverageFromParts
          cases hs : sortDescBy CovEntry.percent (speciesEntries ts code) with
          | nil => exact absurd hs hsne
          | cons best rest => exact ⟨_, rfl⟩
        refine ⟨cov, hcov, ?_⟩
        rw [hcov] at h
        have himp := Option.some_injective _ h
        rw [← himp]
      · rw [if_neg hany] at h
        exact Option.noConfusion h

/-- Witness for C10 (amended) at Scenario A and hotspot `"H1"`: the entry for
`"ROBI"` exists and its `isCritical` flag is decided by the thresholds
applied to the present coverage entry. -/
theorem hotspotImportance_coverage_present_witness :
    getHotspotSpeciesImportance tsA "H1" "ROBI" =
      some { isBestAtThisHotspot := false, isCritical := true } ∧
    ∃ cov, calculateSpeciesCoverage tsA 5 "ROBI" = some cov ∧
      HotspotSpeciesImportance.isCritical
          { isBestAtThisHotspot := false, isCritical := true } =
        isLowCoverageSpecies (some cov) 15 10 :=
  ⟨by decide, hotspotImportance_coverage_present tsA "H1" "ROBI" (by decide)
    { isBestAtThisHotspot := false, isCritical := true } (by decide)⟩

/-- C1: for every species present in the coverage result, `totalChecklists`
is `ΣN` over the top-`topN` locations by percent, and `weightedAvgPercent` is
the checklist-weighted mean `Σ(percent·N)/ΣN` over those same locations,
rounded to one decimal place with round-half-away-from-zero, and exactly 0
when `ΣN = 0` (in `ℚ` no NaN or infinity can arise; the `ΣN = 0` case is the
special-cased branch of the source).  The data-model preconditions
(percent and N nonnegative) are assumed. -/
theorem weightedAvg_formula (ts : List HotspotTargetData) (topN : ℕ) (code : String)
    (cov : SpeciesCoverage)
    (hp : ∀ t ∈ ts, 0 ≤ t.N ∧ ∀ it ∈ t.items, 0 ≤ it.percent)
    (hc : calculateSpeciesCoverage ts topN code = some cov) :
    cov.totalChecklists = ((topEntries ts topN code).map CovEntry.N).sum ∧
    cov.weightedAvgPercent =
      (if ((topEntries ts topN code).map CovEntry.N).sum = 0 then 0
       else roundTo1dp (((topEntries ts topN code).map fun e => e.percent * e.N).sum /
         ((topEntries ts topN code).map CovEntry.N).sum)) := by
  obtain ⟨best, rest, hs, rfl⟩ := calcCov_some hc
  have htop : topEntries ts topN code = (best :: rest).take topN := by
    unfold topEntries
    rw [hs]
  rw [htop]
  have hnn : ∀ e ∈ (best :: rest).take topN, 0 ≤ e.percent ∧ 0 ≤ e.N := by
    intro e he
    have he2 : e ∈ sortDescBy CovEntry.percent (speciesEntries ts code) := by
      rw [hs]
      exact List.take_subset _ _ he
    have he3 : e ∈ speciesEntries ts code := mem_sortDescBy.mp he2
    obtain ⟨t, ht, it, hit, _, hpe, hNe, _⟩ := speciesEntries_origin he3
    obtain ⟨hN, hps⟩ := hp t ht
    exact ⟨hpe ▸ hps it hit, hNe ▸ hN⟩
  have hS : 0 ≤ (((best :: rest).take topN).map CovEntry.N).sum := by
    apply List.sum_nonneg
    intro x hx
    obtain ⟨e, he, rfl⟩ := List.mem_map.mp hx
    exact (hnn e he).2
  have hW : 0 ≤ (((best :: rest).take topN).map fun e => e.percent * e.N).sum := by
    apply List.sum_nonneg
    intro x hx
    obtain ⟨e, he, rfl⟩ := List.mem_map.mp hx
    exact mul_nonneg (hnn e he).1 (hnn e he).2
  refine ⟨rfl, ?_⟩
  show jsRoundTo1 (if 0 < (((best :: rest).take topN).map CovEntry.N).sum
      then (((best :: rest).take topN).map fun hs => hs.percent * hs.N).sum /
        (((best :: rest).take topN).map CovEntry.N).sum
      else 0) = _
  by_cases hz : (((best :: rest).take topN).map CovEntry.N).sum = 0
  · rw [if_pos hz, if_neg (by rw [hz]; exact lt_irrefl 0)]
    decide
  · have hpos : 0 < (((best :: rest).take topN).map CovEntry.N).sum :=
      lt_of_le_of_ne hS (Ne.symm hz)
    rw [if_pos hpos, if_neg hz]
    exact jsRoundTo1_eq_roundTo1dp (div_nonneg hW hS)

/-- Witness for C1 at Scenario A: coverage for `"ROBI"` is `covA`, its
`totalChecklists` is 25 = ΣN, and its `weightedAvgPercent` obeys the
round-half-away-from-zero weighted-mean formula. -/
theorem weightedAvg_formula_witness :
    (∀ t ∈ tsA, 0 ≤ t.N ∧ ∀ it ∈ t.items, 0 ≤ it.percent) ∧
    calculateSpeciesCoverage tsA 5 "ROBI" = some covA ∧
    (covA.totalChecklists = ((topEntries tsA 5 "ROBI").map CovEntry.N).sum ∧
     covA.weightedAvgPercent =
       (if ((topEntries tsA 5 "ROBI").map CovEntry.N).sum = 0 then 0
        else roundTo1dp (((topEntries tsA 5 "ROBI").map fun e => e.percent * e.N).sum /
          ((topEntries tsA 5 "ROBI").map CovEntry.N).sum))) :=
  ⟨by decide, by decide, weightedAvg_formula tsA 5 "ROBI" covA (by decide) (by decide)⟩

/-- C2: for every species present in the coverage result, `maxPercent` is the
highest percent among the collected qualifying tuples, and `bestHotspotId` is
the id of the FIRST tuple (input order: targets outer, items inner) achieving
that highest percent — the stable sort resolves ties to the earliest
qualifying location in the input array. -/
theorem bestHotspot_consistency (ts : List HotspotTargetData) (topN : ℕ) (code : String)
    (cov : SpeciesCoverage)
    (hc : calculateSpeciesCoverage ts topN code = some cov) :
    cov.maxPercent = maxKeyOf CovEntry.percent (speciesEntries ts code) ∧
    ∃ e, (speciesEntries ts code).find?
        (fun x => decide (x.percent = maxKeyOf CovEntry.percent (speciesEntries ts code))) =
          some e ∧
      cov.bestHotspotId = some e.hotspotId := by
  obtain ⟨best, rest, hs, rfl⟩ := calcCov_some hc
  have hne : speciesEntries ts code ≠ [] := by
    intro h0
    rw [h0] at hs
    simp [sortDescBy] at hs
  have hhead := head?_sortDescBy (k := CovEntry.percent) hne
  rw [hs] at hhead
  have hfind : (speciesEntries ts code).find?
      (fun x => decide (x.percent = maxKeyOf CovEntry.percent (speciesEntries ts code))) =
        some best := hhead.symm
  have hkey : best.percent = maxKeyOf CovEntry.percent (speciesEntries ts code) := by
    simpa using List.find?_some hfind
  exact ⟨hkey, best, hfind, rfl⟩

/-- Witness for C2 at Scenario A: the coverage of `"ROBI"` has
`maxPercent = 60` and `bestHotspotId = "H2"`, the first (and only) tuple
attaining the maximum percent. -/
theorem bestHotspot_consistency_witness :
    calculateSpeciesCoverage tsA 5 "ROBI" = some covA ∧
    (covA.maxPercent = maxKeyOf CovEntry.percent (speciesEntries tsA "ROBI") ∧
     ∃ e, (speciesEntries tsA "ROBI").find?
         (fun x => decide (x.percent = maxKeyOf CovEntry.percent (speciesEntries tsA "ROBI"))) =
           some e ∧
       covA.bestHotspotId = some e.hotspotId) :=
  ⟨by decide, bestHotspot_consistency tsA 5 "ROBI" covA (by decide)⟩

/-- C4 counterexample: a single location reporting `"X"` at percent 1/25
(0.04) with one checklist.  The weighted mean is 0.04, which rounds to 0.0,
so the reported `weightedAvgPercent` (0) lies strictly BELOW the minimum
percent (1/25) among the top-K locations used — the betweenness stated by the claim
fails because of the one-decimal rounding. -/
theorem weightedAvg_bounds_cex :
    (calculateSpeciesCoverage tsTiny 5 "X").map SpeciesCoverage.weightedAvgPercent =
      some 0 ∧
    minKeyOf CovEntry.percent (topEntries tsTiny 5 "X") = 1/25 ∧
    ¬ ((1:ℚ)/25 ≤ 0) :=
  ⟨by decide, by decide, by decide⟩

/-- C4 (amended): under the data-model bounds (percents in [0, 100], N ≥ 0),
the `weightedAvgPercent` of every species lies in [0, 100]; it equals 0 whenever
`ΣN = 0` over the top-K locations; and whenever `ΣN > 0` it lies within 1/20
(half of the one-decimal rounding unit) of the interval spanned by the
minimum and maximum percent among the top-K locations actually used. -/
theorem weightedAvg_bounds (ts : List HotspotTargetData) (topN : ℕ) (code : String)
    (cov : SpeciesCoverage)
    (hp : ∀ t ∈ ts, 0 ≤ t.N ∧ ∀ it ∈ t.items, 0 ≤ it.percent ∧ it.percent ≤ 100)
    (hc : calculateSpeciesCoverage ts topN code = some cov) :
    0 ≤ cov.weightedAvgPercent ∧ cov.weightedAvgPercent ≤ 100 ∧
    (((topEntries ts topN code).map CovEntry.N).sum = 0 → cov.weightedAvgPercent = 0) ∧
    (0 < ((topEntries ts topN code).map CovEntry.N).sum →
      minKeyOf CovEntry.percent (topEntries ts topN code) - 1/20 ≤ cov.weightedAvgPercent ∧
      cov.weightedAvgPercent ≤ maxKeyOf CovEntry.percent (topEntries ts topN code) + 1/20) := by
  obtain ⟨best, rest, hs, rfl⟩ := calcCov_some hc
  have htop : topEntries ts topN code = (best :: rest).take topN := by
    unfold topEntries
    rw [hs]
  rw [htop]
  dsimp only
  set top := (best :: rest).take topN with htd
  set S := (top.map CovEntry.N).sum with hSd
  set W := (top.map fun hs => hs.percent * hs.N).sum with hWd
  have hnn : ∀ e ∈ top, (0 ≤ e.percent ∧ e.percent ≤ 100) ∧ 0 ≤ e.N := by
    intro e he
    have he2 : e ∈ sortDescBy CovEntry.percent (speciesEntries ts code) := by
      rw [hs]
      exact List.take_subset _ _ he
    have he3 : e ∈ speciesEntries ts code := mem_sortDescBy.mp he2
    obtain ⟨t, ht, it, hit, _, hpe, hNe, _⟩ := speciesEntries_origin he3
    obtain ⟨hN, hps⟩ := hp t ht
    exact ⟨⟨hpe ▸ (hps it hit).1, hpe ▸ (hps it hit).2⟩, hNe ▸ hN⟩
  have hS : 0 ≤ S := by
    rw [hSd]
    apply List.sum_nonneg
    intro x hx
    obtain ⟨e, he, rfl⟩ := List.mem_map.mp hx
    exact (hnn e he).2
  have hW : 0 ≤ W := by
    rw [hWd]
    apply List.sum_nonneg
    intro x hx
    obtain ⟨e, he, rfl⟩ := List.mem_map.mp hx
    exact mul_nonneg (hnn e he).1.1 (hnn e he).2
  set m := if 0 < S then W / S else 0 with hm
  have hm0 : 0 ≤ m := by
    rw [hm]
    split
    · next hSpos => exact div_nonneg hW hS
    · exact le_refl 0
  have hm100 : m ≤ 100 := by
    rw [hm]
    split
    · next hSpos =>
      rw [div_le_iff hSpos]
      have hptwise : (top.map fun e => e.percent * e.N).sum ≤
          (top.map fun e => 100 * e.N).sum := by
        apply List.sum_le_sum
        intro e he
        exact mul_le_mul_of_nonneg_right (hnn e he).1.2 (hnn e he).2
      have hconst : (top.map fun e => 100 * e.N).sum = 100 * S := by
        rw [hSd]
        simpa using List.sum_map_mul_left top CovEntry.N 100
      rw [hWd]
      exact hptwise.trans_eq hconst
    · norm_num
  refine ⟨?_, ?_, ?_, ?_⟩
  · calc (0:ℚ) = jsRoundTo1 0 := by decide
      _ ≤ jsRoundTo1 m := jsRoundTo1_mono hm0
  · calc jsRoundTo1 m ≤ jsRoundTo1 100 := jsRoundTo1_mono hm100
      _ = 100 := by decide
  · intro hz
    have hmz : m = 0 := by
      rw [hm, if_neg (by rw [hz]; exact lt_irrefl 0)]
    rw [hmz]
    decide
  · intro hSpos
    have hmval : m = W / S := by rw [hm, if_pos hSpos]
    constructor
    · have hminm : minKeyOf CovEntry.percent top ≤ m := by
        rw [hmval, le_div_iff hSpos]
        have hptwise : (top.map fun e => minKeyOf CovEntry.percent top * e.N).sum ≤
            (top.map fun e => e.percent * e.N).sum := by
          apply List.sum_le_sum
          intro e he
          exact mul_le_mul_of_nonneg_right (minKeyOf_le he) (hnn e he).2
        have hconst : (top.map fun e => minKeyOf CovEntry.percent top * e.N).sum =
            minKeyOf CovEntry.percent top * S := by
          rw [hSd]
          simpa using List.sum_map_mul_left top CovEntry.N (minKeyOf CovEntry.percent top)
        rw [hWd]
        exact hconst.symm.trans_le hptwise
      have := sub_lt_jsRoundTo1 m
      linarith
    · have hmaxm : m ≤ maxKeyOf CovEntry.percent top := by
        rw [hmval, div_le_iff hSpos]
        have hptwise : (top.map fun e => e.percent * e.N).sum ≤
            (top.map fun e => maxKeyOf CovEntry.percent top * e.N).sum := by
          apply List.sum_le_sum
          intro e he
          exact mul_le_mul_of_nonneg_right (le_maxKeyOf he) (hnn e he).2
        have hconst : (top.map fun e => maxKeyOf CovEntry.percent top * e.N).sum =
            maxKeyOf CovEntry.percent top * S := by
          rw [hSd]
          simpa using List.sum_map_mul_left top CovEntry.N (maxKeyOf CovEntry.percent top)
        rw [hWd]
        exact hptwise.trans_eq hconst
      have := jsRoundTo1_le_add m
      linarith

/-- Witness for C4 (amended) at Scenario A: `weightedAvgPercent = 44` lies in
[0, 100], `ΣN = 25 > 0`, and 44 is within 1/20 of the interval [40, 60]. -/
theorem weightedAvg_bounds_witness :
    (∀ t ∈ tsA, 0 ≤ t.N ∧ ∀ it ∈ t.items, 0 ≤ it.percent ∧ it.percent ≤ 100) ∧
    calculateSpeciesCoverage tsA 5 "ROBI" = some covA ∧
    (0 ≤ covA.weightedAvgPercent ∧ covA.weightedAvgPercent ≤ 100 ∧
     (((topEntries tsA 5 "ROBI").map CovEntry.N).sum = 0 → covA.weightedAvgPercent = 0) ∧
     (0 < ((topEntries tsA 5 "ROBI").map CovEntry.N).sum →
       minKeyOf CovEntry.percent (topEntries tsA 5 "ROBI") - 1/20 ≤ covA.weightedAvgPercent ∧
       covA.weightedAvgPercent ≤ maxKeyOf CovEntry.percent (topEntries tsA 5 "ROBI") + 1/20)) :=
  ⟨by decide, by decide, weightedAvg_bounds tsA 5 "ROBI" covA (by decide) (by decide)⟩
